import Mathlib

/-!
Shallow embedding of `mlrun/serving/v2_serving.py`: the V2 model-serving
dispatcher (`V2ModelServer`), its telemetry pusher (`_ModelLogPusher`) and
the endpoint-record reconciliation (`_init_endpoint_record`).

Conventions of the embedding:
* Python strings stay `String`, Python ints/counters become `Nat`.
* `datetime` values are carried as microsecond timestamps (`Nat`); their
  string renderings (`isoformat`, `str`) are abstracted to `toString` of
  the timestamp, since no claim depends on the exact date format.
* Python exceptions become `Except`/sum results; a raised exception is an
  `.error` value that propagates exactly where the Python exception would.
* Python dicts whose insertion order matters are association lists.
-/

/-! ### Operation classification (`V2ModelServer.do_event`, lines 251-267)

`op = event.path.strip("/")`, then, when the body is a non-empty dict,
`op = op or event_body.get("operation")`, then `if not op and
event.method != "GET": op = "infer"`.  `op` is modelled as
`Option String`: `none` is Python `None`, `some ""` the empty string. -/

/-- Python `s.strip("/")`: remove every leading and trailing `/`. -/
def stripSlashes (s : String) : String :=
  String.mk (((s.toList.dropWhile (fun c => c == '/')).reverse.dropWhile
    (fun c => c == '/')).reverse)

/-- Python truthiness of an optional string: `None` and `""` are falsy. -/
def strFalsy : Option String → Bool
  | none => true
  | some s => s == ""

/-- Python `dict.get` over an insertion-ordered dict of strings. -/
def lookupStr (kvs : List (String × String)) (k : String) : Option String :=
  (kvs.find? (fun p => p.1 == k)).map (fun p => p.2)

/-- The operation classification performed at the top of `do_event`.
`bodyDict = some kvs` means the event body is a dict with entries `kvs`;
`none` means the body is absent or not a dict. -/
def classifyOp (path method : String)
    (bodyDict : Option (List (String × String))) : Option String :=
  let op0 : Option String := some (stripSlashes path)
  let op1 : Option String :=
    match bodyDict with
    | some kvs =>
      if kvs.isEmpty then op0
      else if strFalsy op0 then lookupStr kvs "operation" else op0
    | none => op0
  if strFalsy op1 && method != "GET" then some "infer" else op1

/-- The last slash-separated segment of a path (empty for an empty path). -/
def trailingSegment (path : String) : String :=
  match ((stripSlashes path).splitOn "/").reverse with
  | [] => ""
  | s :: _ => s

/-- Modelled from the spec's words (for comparison with `classifyOp`):
"(1) explicit `operation` field inside the body, else the non-empty
trailing path segment, else — if the HTTP method is not GET — default
to `infer`". -/
def classifyOpSpecOrder (path method : String)
    (bodyDict : Option (List (String × String))) : String :=
  match bodyDict with
  | some kvs =>
    match lookupStr kvs "operation" with
    | some o => o
    | none =>
      if trailingSegment path != "" then trailingSegment path
      else if method != "GET" then "infer" else ""
  | none =>
    if trailingSegment path != "" then trailingSegment path
    else if method != "GET" then "infer" else ""

/-! ### Readiness check (`V2ModelServer._check_readiness`, lines 215-225) -/

/-- The event's trigger: `noTrigger` is a falsy `event.trigger`,
`kind s` a trigger whose `kind` attribute is `s`. -/
inductive Trigger where
  | noTrigger : Trigger
  | kind (s : String) : Trigger
deriving DecidableEq, Repr

/-- `not event.trigger or event.trigger.kind in ["http", ""]`. -/
def interactiveTrigger : Trigger → Bool
  | Trigger.noTrigger => true
  | Trigger.kind s => s == "http" || s == ""

/-- Outcome of `_check_readiness`; `sleepCount` counts `time.sleep(5)`
calls that were executed before returning/raising. -/
inductive CheckResult where
  | ok (sleepCount : Nat) : CheckResult
  | notReadyYet : CheckResult
  | notReady (error : String) (sleepCount : Nat) : CheckResult
deriving DecidableEq, Repr

/-- `for i in range(50): time.sleep(5); if self.ready: return` followed by
`raise RuntimeError(f"model ... is not ready ...")`.  `readyAt j` is the
value of `self.ready` observed after the `j`-th sleep (`readyAt 0` is the
value at entry). -/
def waitLoop (readyAt : Nat → Bool) (err : String) : Nat → Nat → CheckResult
  | 0, sleepCount => CheckResult.notReady err sleepCount
  | fuel + 1, sleepCount =>
    if readyAt (sleepCount + 1) then CheckResult.ok (sleepCount + 1)
    else waitLoop readyAt err fuel (sleepCount + 1)

/-- `V2ModelServer._check_readiness`. -/
def _check_readiness (readyAt : Nat → Bool) (trigger : Trigger)
    (err : String) : CheckResult :=
  if readyAt 0 then CheckResult.ok 0
  else if interactiveTrigger trigger then CheckResult.notReadyYet
  else waitLoop readyAt err 50 0

/-- Number of sleeps executed on a given readiness-check outcome. -/
def sleepsOf : CheckResult → Nat
  | CheckResult.ok n => n
  | CheckResult.notReadyYet => 0
  | CheckResult.notReady _ n => n

/-! ### Construction and `post_init` (lines 98-158) -/

/-- Split a character list at the first occurrence of `sep`. -/
def splitFirstAux (sep : Char) : List Char → List Char →
    Option (List Char × List Char)
  | [], _ => none
  | c :: rest, acc =>
    if c == sep then some (acc.reverse, rest)
    else splitFirstAux sep rest (c :: acc)

/-- Python `name.split(":", 1)` when `":" in name`, else `(name, "")`:
the `__init__` derivation of `self.name` / `self.version`. -/
def splitModelName (rawName : String) : String × String :=
  match splitFirstAux ':' rawName.toList [] with
  | none => (rawName, "")
  | some (n, v) => (String.mk n, String.mk v)

/-- The slice of `V2ModelServer` state the claims depend on. -/
structure ServerState where
  name : String
  version : String
  ready : Bool
  hasModel : Bool
  error : String
deriving DecidableEq, Repr

/-- `V2ModelServer.__init__`: `ready` starts `False` and is set to `True`
exactly when a `model` object is supplied. -/
def initServer (rawName : String) (modelProvided : Bool) : ServerState :=
  { name := (splitModelName rawName).1
    version := (splitModelName rawName).2
    ready := modelProvided
    hasModel := modelProvided
    error := "" }

inductive LoadMode where
  | sync : LoadMode
  | async : LoadMode
deriving DecidableEq, Repr

/-- `V2ModelServer.post_init` model-loading part: `load()` (through
`_load_and_update_state`, directly in sync mode, as the thread target in
async mode) runs iff `not self.ready`.  Returns the new state and whether
`load()` was invoked. -/
def post_init (_mode : LoadMode) (s : ServerState) (loadSucceeds : Bool) :
    ServerState × Bool :=
  if s.ready then (s, false)
  else if loadSucceeds then ({ s with ready := true }, true)
  else ({ s with error := "load failed" }, true)

/-! ### Telemetry pusher (`_ModelLogPusher`, lines 477-553)

`_ModelLogPusher.__init__` sets `_sample_iter = 0`, `_batch_iter = 0`,
`_batch = []`; `stream_sample` / `stream_batch` come from configuration.
`push(start, request, resp, op, error, partition_key)`:
* error records are written to the sink unconditionally, before the
  sampling counter is touched;
* otherwise `_sample_iter = (_sample_iter + 1) % stream_sample` and the
  record is emitted only when `output_stream` is set and the counter is 0;
* with `stream_batch > 1` emitted records accumulate as tabular rows and
  the batch is written only when `_batch_iter` wraps to 0;
* `microsec = (now_date() - start).microseconds`, i.e. the microsecond
  *component* of the (non-negative) timedelta: total elapsed microseconds
  modulo 1000000. -/

/-- A tabular batch row `[request, op, resp, str(start), microsec, metrics]`. -/
structure BatchRow where
  request : String
  op : String
  resp : String
  whenStr : String
  microsec : Nat
  metrics : List (String × Nat)
deriving DecidableEq, Repr

/-- One record handed to `output_stream.push([data], ...)`. -/
inductive Record where
  | errorRec (request : String) (op : String) (whenStr : String)
      (errMsg : String) : Record
  | flat (request : String) (op : String) (resp : String) (whenStr : String)
      (microsec : Nat) (metrics : Option (List (String × Nat))) : Record
  | batched (headers : List String) (values : List BatchRow) : Record
deriving DecidableEq, Repr

/-- The arguments of one `push` call (`startUs`/`nowUs` are the `start`
timestamp and the emission wall-clock time, in microseconds). -/
structure PushInput where
  startUs : Nat
  nowUs : Nat
  request : String
  resp : String
  op : String
  error : Option String
  metrics : List (String × Nat)
deriving DecidableEq, Repr

/-- The mutable slice of `_ModelLogPusher`. `hasStream` is whether
`self.output_stream` is set (it always is when the pusher is constructed
by `post_init`, since streaming must be enabled). -/
structure PusherState where
  stream_sample : Nat
  stream_batch : Nat
  hasStream : Bool
  sample_iter : Nat
  batch_iter : Nat
  batch : List BatchRow
deriving DecidableEq, Repr

/-- `_ModelLogPusher.__init__`. -/
def initPusher (sample batchSize : Nat) (hasStream : Bool) : PusherState :=
  ⟨sample, batchSize, hasStream, 0, 0, []⟩

/-- `data["headers"]` of a batched record. -/
def headersList : List String :=
  ["request", "op", "resp", "when", "microsec", "metrics"]

/-- The batch row appended for one emitted push. -/
def toRow (i : PushInput) : BatchRow :=
  ⟨i.request, i.op, i.resp, toString i.startUs,
    (i.nowUs - i.startUs) % 1000000, i.metrics⟩

/-- `_ModelLogPusher.push`: returns the updated pusher state and the list
of records handed to the output sink by this call (at most one). -/
def push (s : PusherState) (i : PushInput) : PusherState × List Record :=
  match i.error with
  | some e => (s, [Record.errorRec i.request i.op (toString i.startUs) e])
  | none =>
    let sample1 := (s.sample_iter + 1) % s.stream_sample
    let s1 := { s with sample_iter := sample1 }
    if s1.hasStream && sample1 == 0 then
      if 1 < s1.stream_batch then
        let batch0 := if s1.batch_iter == 0 then [] else s1.batch
        let batch1 := batch0 ++ [toRow i]
        let bi1 := (s1.batch_iter + 1) % s1.stream_batch
        let s2 := { s1 with batch := batch1, batch_iter := bi1 }
        if bi1 == 0 then (s2, [Record.batched headersList batch1])
        else (s2, [])
      else
        (s1, [Record.flat i.request i.op i.resp (toString i.startUs)
          ((i.nowUs - i.startUs) % 1000000)
          (if i.metrics.isEmpty then none else some i.metrics)])
    else (s1, [])

/-- A sequence of `push` calls, collecting every record written to the
sink, in order. -/
def pushMany (s : PusherState) (is : List PushInput) :
    PusherState × List Record :=
  match is with
  | [] => (s, [])
  | i :: rest =>
    let r1 := push s i
    let r2 := pushMany r1.fst rest
    (r2.fst, r1.snd ++ r2.snd)

/-- The list of full `B`-sized chunks of `l`, in order (fuel-driven). -/
def fullChunksAux (B : Nat) : Nat → List BatchRow → List (List BatchRow)
  | 0, _ => []
  | fuel + 1, l =>
    if B ≤ l.length then l.take B :: fullChunksAux B fuel (l.drop B)
    else []

/-- The list of full `B`-sized chunks of `l`, in order; a trailing chunk
shorter than `B` is dropped. -/
def fullChunks (B : Nat) (l : List BatchRow) : List (List BatchRow) :=
  fullChunksAux B l.length l

/-! ### `do_event` response assembly and telemetry interplay
(lines 269-390)

`do_event` holds no try/except around `self._model_logger.push(...)`: an
exception raised inside `push` (in particular by `output_stream.push`)
propagates out of `do_event`.  In the predict/explain error path the
logger push runs *before* `raise exc`, so a sink failure there pre-empts
the inference error. -/

/-- Outcome of `do_event` for a predict/explain operation. -/
inductive DoEventOutcome where
  | ok (response : List (String × String)) : DoEventOutcome
  | inferenceError (msg : String) : DoEventOutcome
  | sinkError (msg : String) : DoEventOutcome
deriving DecidableEq, Repr

/-- The predict-path response envelope (lines 291-298): `id`,
`model_name`, `outputs`, `timestamp`, plus `model_version` iff
`self.version` is truthy.  `outputs` and the timestamp are carried as
strings. -/
def predictResponse (event_id model_name version outputs ts : String) :
    List (String × String) :=
  [("id", event_id), ("model_name", model_name), ("outputs", outputs),
    ("timestamp", ts)]
    ++ (if version == "" then [] else [("model_version", version)])

/-- The explain-path response envelope (lines 354-360): `id`,
`model_name`, `outputs`, plus `model_version` iff `self.version` is
truthy — no `timestamp` key. -/
def explainResponse (event_id model_name version outputs : String) :
    List (String × String) :=
  [("id", event_id), ("model_name", model_name), ("outputs", outputs)]
    ++ (if version == "" then [] else [("model_version", version)])

/-- One logger push as seen from `do_event`: the state update, the sink
writes, and whether the call raised (`sinkFails` says whether
`output_stream.push` raises when invoked). -/
def pushAttempt (sinkFails : Bool) (ps : PusherState) (i : PushInput) :
    PusherState × List Record × Bool :=
  let r := push ps i
  (r.fst, r.snd, sinkFails && !r.snd.isEmpty)

/-- The predict/infer branch of `do_event` (readiness and validation
already passed): run `predict`, on failure push an error record (if a
logger is configured) then re-raise; on success build the envelope and
push a telemetry record.  An exception from the sink propagates. -/
def do_event_predict (loggerOn sinkFails : Bool)
    (predictResult : Except String String) (ps : PusherState)
    (event_id model_name version : String) (startUs nowUs : Nat)
    (request op : String) : PusherState × DoEventOutcome :=
  match predictResult with
  | Except.error msg =>
    if loggerOn then
      let r := pushAttempt sinkFails ps
        ⟨startUs, nowUs, request, "", op, some msg, []⟩
      if r.2.2 then (r.1, DoEventOutcome.sinkError "sink push failed")
      else (r.1, DoEventOutcome.inferenceError msg)
    else (ps, DoEventOutcome.inferenceError msg)
  | Except.ok outputs =>
    let resp := predictResponse event_id model_name version outputs
      (toString startUs)
    if loggerOn then
      let r := pushAttempt sinkFails ps
        ⟨startUs, nowUs, request, outputs, op, none, []⟩
      if r.2.2 then (r.1, DoEventOutcome.sinkError "sink push failed")
      else (r.1, DoEventOutcome.ok resp)
    else (ps, DoEventOutcome.ok resp)

/-- The explain branch of `do_event`; identical to the predict branch
except for the response envelope (no `timestamp`). -/
def do_event_explain (loggerOn sinkFails : Bool)
    (explainResult : Except String String) (ps : PusherState)
    (event_id model_name version : String) (startUs nowUs : Nat)
    (request op : String) : PusherState × DoEventOutcome :=
  match explainResult with
  | Except.error msg =>
    if loggerOn then
      let r := pushAttempt sinkFails ps
        ⟨startUs, nowUs, request, "", op, some msg, []⟩
      if r.2.2 then (r.1, DoEventOutcome.sinkError "sink push failed")
      else (r.1, DoEventOutcome.inferenceError msg)
    else (ps, DoEventOutcome.inferenceError msg)
  | Except.ok outputs =>
    let resp := explainResponse event_id model_name version outputs
    if loggerOn then
      let r := pushAttempt sinkFails ps
        ⟨startUs, nowUs, request, outputs, op, none, []⟩
      if r.2.2 then (r.1, DoEventOutcome.sinkError "sink push failed")
      else (r.1, DoEventOutcome.ok resp)
    else (ps, DoEventOutcome.ok resp)

/-! ### Dict-to-list input expansion (`_inputs_to_list`, lines 439-474) -/

/-- A Python value as found in request bodies. -/
inductive PyVal where
  | int (n : Int) : PyVal
  | str (s : String) : PyVal
  | list (xs : List PyVal) : PyVal
  | dict (kvs : List (String × PyVal)) : PyVal

/-- Python `isinstance(v, dict)`. -/
def PyVal.isDict : PyVal → Bool
  | PyVal.dict _ => true
  | _ => false

/-- Lookup in an insertion-ordered Python dict. -/
def dictLookup (kvs : List (String × PyVal)) (k : String) : Option PyVal :=
  (kvs.find? (fun p => p.1 == k)).map (fun p => p.2)

/-- `[input_dict[key] for key in input_order]`: `none` is a `KeyError`. -/
def pickOrdered (input_order : List String) (kvs : List (String × PyVal)) :
    Option (List PyVal) :=
  match input_order with
  | [] => some []
  | k :: rest =>
    match dictLookup kvs k, pickOrdered rest kvs with
    | some v, some vs => some (v :: vs)
    | _, _ => none

/-- `[[input_dict[key] for key in input_order] for input_dict in inputs]`:
`none` is a `KeyError` (the non-dict arm is unreachable behind the
`all(isinstance(item, dict) ...)` guard). -/
def pickRows (input_order : List String) : List PyVal → Option (List (List PyVal))
  | [] => some []
  | PyVal.dict kvs :: rest =>
    match pickOrdered input_order kvs, pickRows input_order rest with
    | some r, some rs => some (r :: rs)
    | _, _ => none
  | _ :: _ => none

/-- `request[k] = v` on an insertion-ordered Python dict. -/
def setKey (kvs : List (String × PyVal)) (k : String) (v : PyVal) :
    List (String × PyVal) :=
  if (kvs.find? (fun p => p.1 == k)).isSome then
    kvs.map (fun p => if p.1 == k then (k, v) else p)
  else kvs ++ [(k, v)]

/-- The errors `_inputs_to_list` raises; `missingKeys` carries the
`input_order` list embedded in the `KeyError`-branch message
"Input dictionary don't contain all the necessary input keys : ...". -/
inductive InputsErr where
  | noFeatureOrder : InputsErr
  | missingKeys (declared : List String) : InputsErr
  | badType : InputsErr
deriving DecidableEq, Repr

/-- `V2ModelServer._inputs_to_list`.  `specInputs` is the declared
feature-name order from `self.model_spec.inputs` (`none` when there is no
model spec; `some []` when the spec has an empty/falsy input list). -/
def _inputs_to_list (specInputs : Option (List String))
    (request : List (String × PyVal)) :
    Except InputsErr (List (String × PyVal)) :=
  match specInputs with
  | none => Except.error InputsErr.noFeatureOrder
  | some input_order =>
    if input_order.isEmpty then Except.error InputsErr.noFeatureOrder
    else
      match dictLookup request "inputs" with
      | some (PyVal.list xs) =>
        if xs.all PyVal.isDict then
          match pickRows input_order xs with
          | some rows =>
            Except.ok (setKey request "inputs"
              (PyVal.list (rows.map PyVal.list)))
          | none => Except.error (InputsErr.missingKeys input_order)
        else Except.error InputsErr.badType
      | some (PyVal.dict kvs) =>
        match pickOrdered input_order kvs with
        | some vs =>
          Except.ok (setKey request "inputs" (PyVal.list vs))
        | none => Except.error (InputsErr.missingKeys input_order)
      | _ => Except.error InputsErr.badType

/-! ### Endpoint reconciliation (`_init_endpoint_record`, lines 556-690)

The lookup `get_model_endpoint` is wrapped in try/except: a
`MLRunNotFoundError` leaves `model_ep = None` (absence), a
`MLRunBadRequestError` ("cannot get the model endpoints store", i.e. the
registry is unavailable) is logged and the function returns `None`
immediately.  Afterwards `get_function`, `create_model_endpoint` and
`patch_model_endpoint` are *not* wrapped; their failures propagate. -/

/-- The endpoint fields compared during reconciliation. -/
structure EndpointFields where
  function_uid : Option String
  model_name : Option String
  model_uid : Option String
  model_tag : Option String
  model_db_key : Option String
  labels : List (String × String)
  model_class : String
  monitoring_enabled : Bool
deriving DecidableEq, Repr

/-- A remote model-endpoint record (`model_ep`). -/
structure ModelEndpointRec where
  uid : String
  fields : EndpointFields
deriving DecidableEq, Repr

/-- Outcome of `get_model_endpoint`, as discriminated by the
`except` clauses of `_init_endpoint_record`. -/
inductive EpLookup where
  | found (ep : ModelEndpointRec) : EpLookup
  | notFound : EpLookup
  | badRequest (msg : String) : EpLookup
deriving DecidableEq, Repr

/-- The model-side identity (from `model.model_spec` or `None`s). -/
structure LocalModelInfo where
  model_name : Option String
  model_uid : Option String
  model_tag : Option String
  model_db_key : Option String
  labels : List (String × String)
  model_class : String
deriving DecidableEq, Repr

/-- The field-by-field diff building `attributes` (lines 648-671): the
names of the fields that drifted from the remote copy. -/
def diffAttrs (localF remote : EndpointFields) : List String :=
  (if localF.function_uid ≠ remote.function_uid then ["function_uid"] else [])
    ++ (if localF.model_name ≠ remote.model_name then ["model_name"] else [])
    ++ (if localF.model_uid ≠ remote.model_uid then ["model_uid"] else [])
    ++ (if localF.model_tag ≠ remote.model_tag then ["model_tag"] else [])
    ++ (if localF.model_db_key ≠ remote.model_db_key then ["model_db_key"]
        else [])
    ++ (if localF.labels ≠ remote.labels then ["labels"] else [])
    ++ (if localF.model_class ≠ remote.model_class then ["model_class"]
        else [])
    ++ (if localF.monitoring_enabled ≠ remote.monitoring_enabled then
        ["monitoring_mode"] else [])

/-- The local field values compared/written during reconciliation. -/
def mkLocalFields (fuid : Option String) (lm : LocalModelInfo)
    (track : Bool) : EndpointFields :=
  ⟨fuid, lm.model_name, lm.model_uid, lm.model_tag, lm.model_db_key,
    lm.labels, lm.model_class, track⟩

/-- `_init_endpoint_record` after the lookup resolved to `model_ep`
(`none` = absence).  `getFunctionUid`, `createUid`, `patchUid` stand for
the unguarded DB calls `get_function`, `create_model_endpoint`,
`patch_model_endpoint`: an `Except.error` is an exception that
propagates. -/
def reconcileAfterLookup (model_ep : Option ModelEndpointRec)
    (getFunctionUid : Except String (Option String)) (track : Bool)
    (lm : LocalModelInfo) (createUid patchUid : Except String String) :
    Except String (Option String) :=
  match getFunctionUid with
  | Except.error e => Except.error e
  | Except.ok fuid =>
    match model_ep with
    | none =>
      if track then
        match createUid with
        | Except.error e => Except.error e
        | Except.ok uid => Except.ok (some uid)
      else Except.ok none
    | some ep =>
      if diffAttrs (mkLocalFields fuid lm track) ep.fields ≠ [] then
        match patchUid with
        | Except.error e => Except.error e
        | Except.ok uid => Except.ok (some uid)
      else Except.ok (some ep.uid)

/-- `_init_endpoint_record`: a `badRequest` lookup failure is logged and
the function returns `None` without touching the DB again; `notFound` is
treated as absence and reconciliation continues. -/
def _init_endpoint_record (lookup : EpLookup)
    (getFunctionUid : Except String (Option String)) (track : Bool)
    (lm : LocalModelInfo) (createUid patchUid : Except String String) :
    Except String (Option String) :=
  match lookup with
  | EpLookup.badRequest _ => Except.ok none
  | EpLookup.notFound =>
    reconcileAfterLookup none getFunctionUid track lm createUid patchUid
  | EpLookup.found ep =>
    reconcileAfterLookup (some ep) getFunctionUid track lm createUid patchUid

/-! ## Claim theorems, counterexamples and witnesses -/

/-- C2 (amended): the classification order is (1) the non-empty
slash-stripped path, else (2) the `operation` field of a non-empty dict
body when truthy, else (3) `infer` when the method is not GET, else the
falsy operation is kept (empty operation on GET = metadata); the claim's
three examples classify as stated. -/
theorem C2_classification_order (path method : String)
    (kvs : List (String × String)) (o : String)
    (hpath : stripSlashes path ≠ "") (hkvs : kvs ≠ [])
    (hop : lookupStr kvs "operation" = some o) (ho : o ≠ "") :
    (∀ bd, classifyOp path method bd = some (stripSlashes path)) ∧
    classifyOp "" method (some kvs) = some o ∧
    (method ≠ "GET" → classifyOp "" method none = some "infer") ∧
    classifyOp "" "GET" none = some "" ∧
    classifyOp "/infer" "POST" (some []) = some "infer" ∧
    classifyOp "" "POST" (some [("operation", "explain")]) = some "explain" := by
  have hb : (stripSlashes path == "") = false := by
    simp [hpath]
  have h0 : stripSlashes "" = "" := rfl
  have hke : kvs.isEmpty = false := by
    simpa [List.isEmpty_iff] using hkvs
  have hoe : (o == "") = false := by simp [ho]
  refine ⟨?_, ?_, ?_, by decide, by decide, by decide⟩
  · intro bd
    cases bd with
    | none => simp [classifyOp, strFalsy, hb]
    | some kvs2 =>
      by_cases hk : kvs2.isEmpty <;> simp [classifyOp, strFalsy, hb, hk]
  · simp [classifyOp, h0, strFalsy, hke, hop, hoe]
  · intro hm
    simp [classifyOp, h0, strFalsy, hm]

/-- The readiness wait loop sleeps at most `start + fuel` times. -/
theorem waitLoop_sleeps_le (readyAt : Nat → Bool) (err : String) :
    ∀ fuel start, sleepsOf (waitLoop readyAt err fuel start) ≤ start + fuel := by
  intro fuel
  induction fuel with
  | zero => intro start; simp [waitLoop, sleepsOf]
  | succ f ih =>
    intro start
    simp only [waitLoop]
    split
    · simp only [sleepsOf]; omega
    · have := ih (start + 1); omega

/-- If the model never becomes ready within the polled window, the wait
loop ends with the recorded failure reason. -/
theorem waitLoop_all_false (readyAt : Nat → Bool) (err : String) :
    ∀ fuel start, (∀ i, i ≤ start + fuel → readyAt i = false) →
      waitLoop readyAt err fuel start = CheckResult.notReady err (start + fuel) := by
  intro fuel
  induction fuel with
  | zero => intro start _; simp [waitLoop]
  | succ f ih =>
    intro start h
    have h1 : readyAt (start + 1) = false := h (start + 1) (by omega)
    have h2 := ih (start + 1) (fun i hi => h i (by omega))
    have e : start + 1 + f = start + (f + 1) := by omega
    simp only [waitLoop, h1, Bool.false_eq_true, if_false]
    rw [h2, e]

/-- C3: when the model is not ready at entry, an event with no trigger or
an interactive (`""`/`"http"`) trigger kind is rejected immediately with
no sleep, while any other trigger kind polls a bounded number of times
(at most 50 sleeps of 5 seconds, i.e. at most 250 seconds) and, if the
model is still not ready through the whole window, fails with an error
carrying the recorded failure reason. -/
theorem C3_readiness_policy (readyAt : Nat → Bool) (trigger : Trigger)
    (err : String) (h0 : readyAt 0 = false) :
    (interactiveTrigger trigger = true →
      _check_readiness readyAt trigger err = CheckResult.notReadyYet ∧
      sleepsOf (_check_readiness readyAt trigger err) = 0) ∧
    (interactiveTrigger trigger = false →
      sleepsOf (_check_readiness readyAt trigger err) ≤ 50 ∧
      sleepsOf (_check_readiness readyAt trigger err) * 5 ≤ 250 ∧
      ((∀ i, i ≤ 50 → readyAt i = false) →
        _check_readiness readyAt trigger err = CheckResult.notReady err 50)) := by
  constructor
  · intro hi
    simp [_check_readiness, h0, hi, sleepsOf]
  · intro hni
    have hcr : _check_readiness readyAt trigger err = waitLoop readyAt err 50 0 := by
      simp [_check_readiness, h0, hni]
    refine ⟨?_, ?_, ?_⟩
    · rw [hcr]; have := waitLoop_sleeps_le readyAt err 50 0; omega
    · rw [hcr]; have := waitLoop_sleeps_le readyAt err 50 0; omega
    · intro hall
      rw [hcr]
      have := waitLoop_all_false readyAt err 50 0 (fun i hi => hall i (by omega))
      simpa using this

/-- Witness for C3 with a never-ready model: an `"http"` trigger is
rejected immediately and a `"kafka"` trigger fails after 50 sleeps with
the recorded reason. -/
theorem C3_readiness_policy_witness :
    _check_readiness (fun _ => false) (Trigger.kind "http") "load failed"
      = CheckResult.notReadyYet ∧
    _check_readiness (fun _ => false) (Trigger.kind "kafka") "load failed"
      = CheckResult.notReady "load failed" 50 :=
  ⟨((C3_readiness_policy (fun _ => false) (Trigger.kind "http") "load failed"
      rfl).1 rfl).1,
   ((C3_readiness_policy (fun _ => false) (Trigger.kind "kafka") "load failed"
      rfl).2 rfl).2.2 (fun _ _ => rfl)⟩

/-- C10: when a model object is supplied to the constructor the server is
ready immediately: `post_init` does not invoke `load()` in either mode
and leaves the state unchanged, and every readiness check returns at once
(zero sleeps, no error) for every trigger kind. -/
theorem C10_model_supplied_ready (rawName err : String) (mode : LoadMode)
    (loadSucceeds : Bool) (trigger : Trigger) :
    (initServer rawName true).ready = true ∧
    (post_init mode (initServer rawName true) loadSucceeds).snd = false ∧
    (post_init mode (initServer rawName true) loadSucceeds).fst
      = initServer rawName true ∧
    _check_readiness (fun _ => (initServer rawName true).ready) trigger err
      = CheckResult.ok 0 ∧
    sleepsOf (_check_readiness (fun _ => (initServer rawName true).ready)
      trigger err) = 0 := by
  refine ⟨rfl, ?_, ?_, ?_, ?_⟩ <;>
    simp [initServer, post_init, _check_readiness, sleepsOf]

/-- C6 counterexample: a successful `explain` operation returns the
envelope produced by `explainResponse`, and that envelope has no
`timestamp` key — the claim that an explain response contains a
`timestamp` is false. -/
theorem C6_counterexample :
    (do_event_explain true false (Except.ok "[7]") (initPusher 1 1 true)
      "1" "my" "latest" 0 5 "r" "explain").snd
      = DoEventOutcome.ok (explainResponse "1" "my" "latest" "[7]") ∧
    lookupStr (explainResponse "1" "my" "latest" "[7]") "timestamp" = none := by
  refine ⟨by decide, by decide⟩

/-- C6 (amended): successful predict responses carry exactly the keys
`id`, `model_name`, `outputs`, `timestamp` plus `model_version` iff the
version is non-empty; explain responses carry the same keys except
`timestamp`; a model named `"my:latest"` splits into name `"my"` and
version `"latest"`, for which the predict envelope matches the claim's
example. -/
theorem C6_envelope (eid name ver outs ts req : String)
    (ps : PusherState) (su nu : Nat) (loggerOn : Bool) :
    (do_event_predict loggerOn false (Except.ok outs) ps eid name ver su nu
      req "infer").snd
      = DoEventOutcome.ok (predictResponse eid name ver outs (toString su)) ∧
    (predictResponse eid name ver outs ts).map Prod.fst
      = ["id", "model_name", "outputs", "timestamp"]
        ++ (if ver = "" then [] else ["model_version"]) ∧
    (do_event_explain loggerOn false (Except.ok outs) ps eid name ver su nu
      req "explain").snd
      = DoEventOutcome.ok (explainResponse eid name ver outs) ∧
    (explainResponse eid name ver outs).map Prod.fst
      = ["id", "model_name", "outputs"]
        ++ (if ver = "" then [] else ["model_version"]) ∧
    splitModelName "my:latest" = ("my", "latest") ∧
    predictResponse "1" "my" "latest" "[7]" ts
      = [("id", "1"), ("model_name", "my"), ("outputs", "[7]"),
         ("timestamp", ts), ("model_version", "latest")] := by
  refine ⟨?_, ?_, ?_, ?_, by decide, by simp [predictResponse]⟩
  · cases loggerOn <;> simp [do_event_predict, pushAttempt]
  · by_cases hv : ver = "" <;> simp [predictResponse, hv]
  · cases loggerOn <;> simp [do_event_explain, pushAttempt]
  · by_cases hv : ver = "" <;> simp [explainResponse, hv]

/-- C9: the `microsec` value recorded by `push` is
`(now_date() - start).microseconds`, the sub-second component of the
elapsed time: a push emitted 1.5 seconds (1500000 microseconds) after
`start` records `microsec = 500000`, not the full elapsed 1500000. -/
theorem C9_microsec_truncated :
    (push (initPusher 1 1 true) ⟨0, 1500000, "r", "o", "infer", none, []⟩).snd
      = [Record.flat "r" "infer" "o" "0" 500000 none] ∧
    (1500000 : Nat) % 1000000 = 500000 ∧
    (500000 : Nat) ≠ 1500000 := by
  refine ⟨by decide, by decide, by decide⟩

/-- C1 counterexample: with a logger configured and a failing sink, a
fresh sample-everything pusher makes `do_event` end in the sink's error —
both when `predict` succeeds (no response is returned) and when `predict`
fails (the sink error replaces the inference error `"boom"`). -/
theorem C1_counterexample :
    (do_event_predict true true (Except.ok "[7]") (initPusher 1 1 true)
      "1" "my" "" 0 5 "r" "infer").snd
      = DoEventOutcome.sinkError "sink push failed" ∧
    (do_event_predict true true (Except.error "boom") (initPusher 1 1 true)
      "1" "my" "" 0 5 "r" "infer").snd
      = DoEventOutcome.sinkError "sink push failed" ∧
    DoEventOutcome.sinkError "sink push failed"
      ≠ DoEventOutcome.inferenceError "boom" ∧
    (∀ resp, DoEventOutcome.sinkError "sink push failed"
      ≠ DoEventOutcome.ok resp) := by
  refine ⟨by decide, by decide, by decide, fun resp h => by cases h⟩

/-- C1 (amended): a telemetry sink failure propagates out of `do_event`
whenever the logger attempts a sink write (always, on a fresh
sample-every-call pusher): the outcome is the sink error instead of the
response or the inference error, for predict and explain alike; only when
the sink does not fail does `do_event` return the response or re-raise
exactly the inference error. -/
theorem C1_sink_failure_propagates (sinkFails : Bool)
    (pr : Except String String) (ps : PusherState)
    (eid name ver req opName : String) (su nu : Nat) :
    (sinkFails = false →
      (do_event_predict true sinkFails pr ps eid name ver su nu req
        opName).snd
        = (match pr with
           | Except.ok o =>
             DoEventOutcome.ok (predictResponse eid name ver o (toString su))
           | Except.error m => DoEventOutcome.inferenceError m)) ∧
    (sinkFails = true →
      (do_event_predict true sinkFails pr (initPusher 1 1 true) eid name ver
        su nu req opName).snd
        = DoEventOutcome.sinkError "sink push failed") ∧
    (sinkFails = true →
      (do_event_explain true sinkFails pr (initPusher 1 1 true) eid name ver
        su nu req opName).snd
        = DoEventOutcome.sinkError "sink push failed") := by
  refine ⟨?_, ?_, ?_⟩
  · intro h; subst h
    cases pr <;> simp [do_event_predict, pushAttempt]
  · intro h; subst h
    cases pr <;> simp [do_event_predict, pushAttempt, push, initPusher]
  · intro h; subst h
    cases pr <;> simp [do_event_explain, pushAttempt, push, initPusher]

/-- Witness for the C1 amended theorem at concrete inputs. -/
theorem C1_sink_failure_propagates_witness :
    (do_event_predict true true (Except.ok "[9]") (initPusher 1 1 true)
      "2" "m" "" 0 7 "q" "infer").snd
      = DoEventOutcome.sinkError "sink push failed" :=
  (C1_sink_failure_propagates true (Except.ok "[9]") (initPusher 1 1 true)
    "2" "m" "" "q" "infer" 0 7).2.1 rfl

/-- An error push writes its record to the sink before the sampling
counter is touched, leaving the pusher state unchanged. -/
theorem push_error_unconditional (s : PusherState) (i : PushInput)
    (e : String) (he : i.error = some e) :
    push s i = (s, [Record.errorRec i.request i.op (toString i.startUs) e]) := by
  simp [push, he]

/-- A non-error push increments the sampling counter modulo the
configured sample rate, whatever else it does. -/
theorem push_counter_increment (s : PusherState) (i : PushInput)
    (hne : i.error = none) :
    (push s i).fst.sample_iter = (s.sample_iter + 1) % s.stream_sample := by
  simp only [push, hne]
  split_ifs <;> rfl

/-- With batch size 1 and a counter below `N`, a run of non-error pushes
emits one flat record exactly each time the counter wraps: the final
counter and the number of sink writes follow the div/mod arithmetic. -/
theorem pushMany_sample_count (N : Nat) (hN : 0 < N) :
    ∀ (inputs : List PushInput), (∀ j ∈ inputs, j.error = none) →
    ∀ (si bi : Nat) (b : List BatchRow), si < N →
      (pushMany ⟨N, 1, true, si, bi, b⟩ inputs).fst.sample_iter
        = (si + inputs.length) % N ∧
      (pushMany ⟨N, 1, true, si, bi, b⟩ inputs).snd.length
        = (si + inputs.length) / N := by
  intro inputs
  induction inputs with
  | nil =>
    intro _ si bi b hsi
    simp [pushMany, Nat.mod_eq_of_lt hsi, Nat.div_eq_of_lt hsi]
  | cons i rest ih =>
    intro hne si bi b hsi
    have hie : i.error = none := hne i (List.mem_cons_self i rest)
    have hrest : ∀ j ∈ rest, j.error = none :=
      fun j hj => hne j (List.mem_cons_of_mem i hj)
    simp only [List.length_cons]
    rcases Nat.lt_or_ge (si + 1) N with hlt | hge
    · -- the counter does not wrap: no emission on this push
      have hmod : (si + 1) % N = si + 1 := Nat.mod_eq_of_lt hlt
      have hne0 : ((si + 1) % N == 0) = false := by
        rw [hmod]; simp
      have hstep : push ⟨N, 1, true, si, bi, b⟩ i
          = (⟨N, 1, true, si + 1, bi, b⟩, []) := by
        simp [push, hie, hne0, hmod]
      obtain ⟨ih1, ih2⟩ := ih hrest (si + 1) bi b hlt
      have e1 : si + 1 + rest.length = si + (rest.length + 1) := by omega
      rw [e1] at ih1 ih2
      simp only [pushMany, hstep, List.nil_append]
      exact ⟨ih1, ih2⟩
    · -- the counter wraps to 0: one flat record is emitted
      have heq : si + 1 = N := by omega
      have hmod : (si + 1) % N = 0 := by rw [heq, Nat.mod_self]
      have hstep : push ⟨N, 1, true, si, bi, b⟩ i
          = (⟨N, 1, true, 0, bi, b⟩,
             [Record.flat i.request i.op i.resp (toString i.startUs)
               ((i.nowUs - i.startUs) % 1000000)
               (if i.metrics.isEmpty then none else some i.metrics)]) := by
        simp [push, hie, hmod]
      obtain ⟨ih1, ih2⟩ := ih hrest 0 bi b (by omega)
      rw [Nat.zero_add] at ih1 ih2
      simp only [pushMany, hstep, List.singleton_append, List.length_cons]
      constructor
      · rw [ih1]
        have e1 : si + (rest.length + 1) = N + rest.length := by omega
        rw [e1, Nat.add_mod_left]
      · rw [ih2]
        have e1 : si + (rest.length + 1) = rest.length + N := by omega
        rw [e1, Nat.add_div_right _ hN]

/-- C4: the sampling counter increments modulo the sample rate on each
non-error push; an error push reaches the sink unconditionally with the
state (hence counter) unchanged; and over any run of non-error pushes
from a fresh pusher with sample rate `N`, exactly `⌊len/N⌋` records reach
the sink (1 of every `N`), the counter ending at `len % N`. -/
theorem C4_sampling (N : Nat) (inputs : List PushInput)
    (s : PusherState) (i : PushInput)
    (hN : 0 < N) (hne : ∀ j ∈ inputs, j.error = none) :
    (i.error = none →
      (push s i).fst.sample_iter = (s.sample_iter + 1) % s.stream_sample) ∧
    (∀ e, i.error = some e →
      push s i = (s, [Record.errorRec i.request i.op (toString i.startUs) e])) ∧
    (pushMany (initPusher N 1 true) inputs).snd.length = inputs.length / N ∧
    (pushMany (initPusher N 1 true) inputs).fst.sample_iter
      = inputs.length % N := by
  have hmain := pushMany_sample_count N hN inputs hne 0 0 [] hN
  refine ⟨fun h => push_counter_increment s i h,
    fun e he => push_error_unconditional s i e he, ?_, ?_⟩
  · have := hmain.2
    simpa [initPusher] using this
  · have := hmain.1
    simpa [initPusher] using this

/-- Witness for C4: three non-error pushes at sample rate 2 produce one
sink write, and an error push is written with the state unchanged. -/
theorem C4_sampling_witness :
    (0 : Nat) < 2 ∧
    (pushMany (initPusher 2 1 true)
      [⟨0, 3, "a", "x", "infer", none, []⟩,
       ⟨0, 4, "b", "y", "infer", none, []⟩,
       ⟨0, 5, "c", "z", "infer", none, []⟩]).snd.length = 3 / 2 ∧
    (pushMany (initPusher 2 1 true)
      [⟨0, 3, "a", "x", "infer", none, []⟩,
       ⟨0, 4, "b", "y", "infer", none, []⟩,
       ⟨0, 5, "c", "z", "infer", none, []⟩]).fst.sample_iter = 3 % 2 ∧
    push (initPusher 5 1 true) ⟨0, 9, "a", "", "infer", some "boom", []⟩
      = (initPusher 5 1 true, [Record.errorRec "a" "infer" "0" "boom"]) := by
  have h := C4_sampling 2
    [⟨0, 3, "a", "x", "infer", none, []⟩,
     ⟨0, 4, "b", "y", "infer", none, []⟩,
     ⟨0, 5, "c", "z", "infer", none, []⟩]
    (initPusher 5 1 true) ⟨0, 9, "a", "", "infer", some "boom", []⟩
    (by decide) (by decide)
  exact ⟨by decide, h.2.2.1, h.2.2.2, h.2.1 "boom" rfl⟩

/-- The chunking helper ignores its fuel once the fuel covers the list. -/
theorem fullChunksAux_irrel (B : Nat) (hB : 0 < B) :
    ∀ f1 f2 (l : List BatchRow), l.length ≤ f1 → l.length ≤ f2 →
      fullChunksAux B f1 l = fullChunksAux B f2 l := by
  intro f1
  induction f1 with
  | zero =>
    intro f2 l h1 _
    have : l = [] := List.length_eq_zero.mp (by omega)
    subst this
    cases f2 with
    | zero => rfl
    | succ g =>
      simp only [fullChunksAux, List.length_nil]
      rw [if_neg (by omega)]
  | succ f ih =>
    intro f2 l h1 h2
    cases f2 with
    | zero =>
      have : l = [] := List.length_eq_zero.mp (by omega)
      subst this
      simp only [fullChunksAux, List.length_nil]
      rw [if_neg (by omega)]
    | succ g =>
      simp only [fullChunksAux]
      by_cases hc : B ≤ l.length
      · rw [if_pos hc, if_pos hc]
        congr 1
        apply ih
        · rw [List.length_drop]; omega
        · rw [List.length_drop]; omega
      · rw [if_neg hc, if_neg hc]

/-- A list shorter than the chunk size yields no full chunk. -/
theorem fullChunksAux_nil (B : Nat) (fuel : Nat) (l : List BatchRow)
    (h : l.length < B) : fullChunksAux B fuel l = [] := by
  cases fuel with
  | zero => rfl
  | succ f =>
    simp only [fullChunksAux]
    rw [if_neg (by omega)]

/-- A list shorter than the chunk size has no full chunk. -/
theorem fullChunks_nil (B : Nat) (l : List BatchRow) (h : l.length < B) :
    fullChunks B l = [] :=
  fullChunksAux_nil B l.length l h

/-- A list at least as long as the chunk size splits into its first chunk
followed by the chunks of the remainder. -/
theorem fullChunks_cons (B : Nat) (hB : 0 < B) (l : List BatchRow)
    (h : B ≤ l.length) :
    fullChunks B l = l.take B :: fullChunks B (l.drop B) := by
  unfold fullChunks
  obtain ⟨k, hk⟩ : ∃ k, l.length = k + 1 := ⟨l.length - 1, by omega⟩
  rw [hk]
  simp only [fullChunksAux]
  rw [if_pos h]
  congr 1
  apply fullChunksAux_irrel B hB
  · rw [List.length_drop]; omega
  · rfl

/-- The chunking helper produces `⌊len/B⌋` chunks. -/
theorem fullChunksAux_length (B : Nat) (hB : 0 < B) :
    ∀ (fuel : Nat) (l : List BatchRow), l.length ≤ fuel →
      (fullChunksAux B fuel l).length = l.length / B := by
  intro fuel
  induction fuel with
  | zero =>
    intro l h
    have : l = [] := List.length_eq_zero.mp (by omega)
    subst this
    simp [fullChunksAux]
  | succ f ih =>
    intro l h
    by_cases hc : B ≤ l.length
    · simp only [fullChunksAux]
      rw [if_pos hc]
      simp only [List.length_cons]
      rw [ih (l.drop B) (by rw [List.length_drop]; omega)]
      rw [List.length_drop]
      rw [Nat.div_eq l.length B, if_pos ⟨hB, hc⟩]
    · simp only [fullChunksAux]
      rw [if_neg hc]
      simp [Nat.div_eq_of_lt (by omega : l.length < B)]

/-- Chunking produces `⌊len/B⌋` full chunks. -/
theorem fullChunks_length (B : Nat) (hB : 0 < B) (l : List BatchRow) :
    (fullChunks B l).length = l.length / B :=
  fullChunksAux_length B hB l.length l (Nat.le_refl _)

/-- Every chunk produced by the chunking helper has length `B`. -/
theorem fullChunksAux_mem_length (B : Nat) :
    ∀ (fuel : Nat) (l c : List BatchRow),
      c ∈ fullChunksAux B fuel l → c.length = B := by
  intro fuel
  induction fuel with
  | zero => intro l c h; simp [fullChunksAux] at h
  | succ f ih =>
    intro l c h
    by_cases hc : B ≤ l.length
    · simp only [fullChunksAux] at h
      rw [if_pos hc] at h
      rcases List.mem_cons.mp h with h1 | h2
      · subst h1
        rw [List.length_take]
        omega
      · exact ih _ _ h2
    · simp only [fullChunksAux] at h
      rw [if_neg hc] at h
      simp at h

/-- Every full chunk has length `B`. -/
theorem fullChunks_mem_length (B : Nat) (l c : List BatchRow)
    (h : c ∈ fullChunks B l) : c.length = B :=
  fullChunksAux_mem_length B l.length l c h

/-- Batch-mode invariant: starting from a buffer holding `acc` (stale
content allowed when the batch counter is 0), a run of non-error pushes
with sample rate 1 writes exactly the full `B`-chunks of
`acc ++ rows`, and the batch counter ends at `(|acc| + len) % B`. -/
theorem pushMany_batch_chunks (B : Nat) (hB : 1 < B) :
    ∀ (inputs : List PushInput), (∀ j ∈ inputs, j.error = none) →
    ∀ (si : Nat) (acc bat : List BatchRow),
      acc.length < B → (acc ≠ [] → bat = acc) →
      (pushMany ⟨1, B, true, si, acc.length, bat⟩ inputs).snd
        = (fullChunks B (acc ++ inputs.map toRow)).map
            (fun rows => Record.batched headersList rows) ∧
      (pushMany ⟨1, B, true, si, acc.length, bat⟩ inputs).fst.batch_iter
        = (acc.length + inputs.length) % B := by
  intro inputs
  induction inputs with
  | nil =>
    intro _ si acc bat hlen _
    constructor
    · simp only [pushMany, List.map_nil, List.append_nil]
      rw [fullChunks_nil B acc hlen]
      rfl
    · simp only [pushMany, List.length_nil, Nat.add_zero]
      exact (Nat.mod_eq_of_lt hlen).symm
  | cons i rest ih =>
    intro hne si acc bat hlen hbat
    have hie : i.error = none := hne i (List.mem_cons_self i rest)
    have hrest : ∀ j ∈ rest, j.error = none :=
      fun j hj => hne j (List.mem_cons_of_mem i hj)
    have hbatch0 : (if acc = [] then ([] : List BatchRow) else bat)
        = acc := by
      cases acc with
      | nil => simp
      | cons a as =>
        rw [if_neg (by simp)]
        exact hbat (by simp)
    rcases Nat.lt_or_ge (acc.length + 1) B with hlt | hge
    · -- batch not yet full: row is buffered, nothing is written
      have hmod : (acc.length + 1) % B = acc.length + 1 := Nat.mod_eq_of_lt hlt
      have hne0 : ((acc.length + 1) % B == 0) = false := by
        rw [hmod]; simp
      have hstep : push ⟨1, B, true, si, acc.length, bat⟩ i
          = (⟨1, B, true, 0, acc.length + 1, acc ++ [toRow i]⟩, []) := by
        simp [push, hie, hbatch0, hne0, hmod, hB, Nat.mod_one]
      have hlen1 : (acc ++ [toRow i]).length = acc.length + 1 := by simp
      obtain ⟨ih1, ih2⟩ := ih hrest 0 (acc ++ [toRow i]) (acc ++ [toRow i])
        (by rw [hlen1]; exact hlt) (fun _ => rfl)
      rw [hlen1] at ih1 ih2
      constructor
      · simp only [pushMany, hstep, List.nil_append, List.map_cons]
        rw [ih1]
        rw [List.append_assoc, List.singleton_append]
      · simp only [pushMany, hstep, List.length_cons]
        rw [ih2]
        have e1 : acc.length + 1 + rest.length
            = acc.length + (rest.length + 1) := by omega
        rw [e1]
    · -- the batch fills up: it is flushed as one tabular record
      have heqB : acc.length + 1 = B := by omega
      have hmod : (acc.length + 1) % B = 0 := by rw [heqB, Nat.mod_self]
      have hstep : push ⟨1, B, true, si, acc.length, bat⟩ i
          = (⟨1, B, true, 0, 0, acc ++ [toRow i]⟩,
             [Record.batched headersList (acc ++ [toRow i])]) := by
        simp [push, hie, hbatch0, hmod, hB, Nat.mod_one]
      have hlen1 : (acc ++ [toRow i]).length = B := by
        simp only [List.length_append, List.length_cons, List.length_nil]
        omega
      obtain ⟨ih1, ih2⟩ := ih hrest 0 [] (acc ++ [toRow i])
        (by simp; omega) (fun h => absurd rfl h)
      simp only [List.nil_append, List.length_nil] at ih1 ih2
      constructor
      · simp only [pushMany, hstep, List.singleton_append, List.map_cons]
        have hsplit : acc ++ toRow i :: rest.map toRow
            = (acc ++ [toRow i]) ++ rest.map toRow := by
          rw [List.append_assoc, List.singleton_append]
        rw [hsplit]
        rw [fullChunks_cons B (by omega) _
          (by rw [List.length_append, hlen1]; omega)]
        rw [List.take_left' hlen1, List.drop_left' hlen1]
        simp only [List.map_cons]
        rw [ih1]
      · simp only [pushMany, hstep, List.length_cons]
        rw [ih2]
        have e1 : acc.length + (rest.length + 1) = B + rest.length := by omega
        rw [e1, Nat.add_mod_left, Nat.zero_add]

/-- C5: with batch size `B > 1` and sampling off (rate 1), the sink
receives the rows grouped into exactly `⌊len/B⌋` tabular records of `B`
rows each, in arrival order under the
(request, op, resp, when, microsec, metrics) row shape; a trailing
partial batch is never written; and with batch size 1 each emitted push
is written individually as a flat record. -/
theorem C5_batching (B : Nat) (inputs : List PushInput)
    (hB : 1 < B) (hne : ∀ j ∈ inputs, j.error = none) :
    (pushMany (initPusher 1 B true) inputs).snd
      = (fullChunks B (inputs.map toRow)).map
          (fun rows => Record.batched headersList rows) ∧
    (pushMany (initPusher 1 B true) inputs).snd.length
      = inputs.length / B ∧
    (∀ r ∈ (pushMany (initPusher 1 B true) inputs).snd,
      ∃ rows, r = Record.batched headersList rows ∧ rows.length = B) ∧
    (pushMany (initPusher 1 B true) inputs).fst.batch_iter
      = inputs.length % B ∧
    (∀ (s : PusherState) (i : PushInput),
      s.stream_batch = 1 → s.hasStream = true → s.stream_sample = 1 →
      i.error = none →
      (push s i).snd = [Record.flat i.request i.op i.resp (toString i.startUs)
        ((i.nowUs - i.startUs) % 1000000)
        (if i.metrics.isEmpty then none else some i.metrics)]) := by
  obtain ⟨h1, h2⟩ := pushMany_batch_chunks B hB inputs hne 0 [] []
    (by simp; omega) (fun h => absurd rfl h)
  simp only [List.nil_append, List.length_nil, Nat.zero_add] at h1 h2
  have hinit : initPusher 1 B true
      = (⟨1, B, true, 0, 0, []⟩ : PusherState) := rfl
  refine ⟨?_, ?_, ?_, ?_, ?_⟩
  · rw [hinit]; exact h1
  · rw [hinit, h1, List.length_map,
      fullChunks_length B (by omega) _, List.length_map]
  · intro r hr
    rw [hinit, h1] at hr
    obtain ⟨rows, hrows, hr⟩ := List.mem_map.mp hr
    exact ⟨rows, hr.symm, fullChunks_mem_length B _ rows hrows⟩
  · rw [hinit]; exact h2
  · intro s i hb hs hss hie
    simp [push, hie, hb, hs, hss, Nat.mod_one]

/-- Witness for C5: three pushes at batch size 2 yield one tabular
record, leaving one row buffered. -/
theorem C5_batching_witness :
    (1 : Nat) < 2 ∧
    (pushMany (initPusher 1 2 true)
      [⟨0, 3, "a", "x", "infer", none, []⟩,
       ⟨0, 4, "b", "y", "infer", none, []⟩,
       ⟨0, 5, "c", "z", "infer", none, []⟩]).snd.length = 3 / 2 ∧
    (pushMany (initPusher 1 2 true)
      [⟨0, 3, "a", "x", "infer", none, []⟩,
       ⟨0, 4, "b", "y", "infer", none, []⟩,
       ⟨0, 5, "c", "z", "infer", none, []⟩]).fst.batch_iter = 3 % 2 := by
  have h := C5_batching 2
    [⟨0, 3, "a", "x", "infer", none, []⟩,
     ⟨0, 4, "b", "y", "infer", none, []⟩,
     ⟨0, 5, "c", "z", "infer", none, []⟩]
    (by decide) (by decide)
  exact ⟨by decide, h.2.1, h.2.2.2.1⟩

/-- When every declared key is present, the comprehension picks the
values in declared-feature order. -/
theorem pickOrdered_eq_map (order : List String)
    (kvs : List (String × PyVal))
    (h : ∀ key ∈ order, (dictLookup kvs key).isSome) :
    pickOrdered order kvs
      = some (order.map
          (fun key => (dictLookup kvs key).getD (PyVal.str ""))) := by
  induction order with
  | nil => rfl
  | cons k rest ih =>
    have hk : (dictLookup kvs k).isSome := h k (List.mem_cons_self _ _)
    obtain ⟨v, hv⟩ := Option.isSome_iff_exists.mp hk
    have ihr := ih (fun key hkey => h key (List.mem_cons_of_mem _ hkey))
    simp only [pickOrdered, hv, ihr, List.map_cons]
    rfl

/-- A missing declared key makes the comprehension raise `KeyError`. -/
theorem pickOrdered_missing (order : List String)
    (kvs : List (String × PyVal)) (k : String)
    (hk : k ∈ order) (hnone : dictLookup kvs k = none) :
    pickOrdered order kvs = none := by
  induction order with
  | nil => cases hk
  | cons a rest ih =>
    rcases List.mem_cons.mp hk with h1 | h2
    · subst h1
      simp [pickOrdered, hnone]
    · cases ha : dictLookup kvs a with
      | none => simp [pickOrdered, ha]
      | some v => simp [pickOrdered, ha, ih h2]

/-- The list-of-dicts comprehension expands each dict in declared-feature
order. -/
theorem pickRows_eq_map (order : List String)
    (dicts : List (List (String × PyVal)))
    (h : ∀ d ∈ dicts, ∀ key ∈ order, (dictLookup d key).isSome) :
    pickRows order (dicts.map PyVal.dict)
      = some (dicts.map (fun d => order.map
          (fun key => (dictLookup d key).getD (PyVal.str "")))) := by
  induction dicts with
  | nil => rfl
  | cons d rest ih =>
    have hd := pickOrdered_eq_map order d (h d (List.mem_cons_self _ _))
    have ihr := ih (fun d2 hd2 => h d2 (List.mem_cons_of_mem _ hd2))
    simp only [List.map_cons, pickRows, hd, ihr]

/-- C7: `_inputs_to_list` fails with the invalid-argument error when the
feature order is unknown (no model spec, or an empty declared input
list); a dict request expands to the values in declared-feature order, a
list-of-dicts request expands row-wise in the same order; and a request
dict missing a declared key fails with the invalid-argument error
carrying the declared key list — which names every missing key. -/
theorem C7_dict_inputs (request : List (String × PyVal))
    (order : List String) (kvs : List (String × PyVal))
    (dicts : List (List (String × PyVal))) (k : String)
    (ho : order ≠ []) :
    _inputs_to_list none request = Except.error InputsErr.noFeatureOrder ∧
    _inputs_to_list (some []) request
      = Except.error InputsErr.noFeatureOrder ∧
    ((∀ key ∈ order, (dictLookup kvs key).isSome) →
      _inputs_to_list (some order) [("inputs", PyVal.dict kvs)]
        = Except.ok [("inputs", PyVal.list (order.map
            (fun key => (dictLookup kvs key).getD (PyVal.str ""))))]) ∧
    ((∀ d ∈ dicts, ∀ key ∈ order, (dictLookup d key).isSome) →
      _inputs_to_list (some order)
          [("inputs", PyVal.list (dicts.map PyVal.dict))]
        = Except.ok [("inputs", PyVal.list (dicts.map (fun d =>
            PyVal.list (order.map (fun key =>
              (dictLookup d key).getD (PyVal.str ""))))))]) ∧
    (k ∈ order → dictLookup kvs k = none →
      _inputs_to_list (some order) [("inputs", PyVal.dict kvs)]
        = Except.error (InputsErr.missingKeys order)) := by
  have hoe : order.isEmpty = false := by
    simpa [List.isEmpty_iff] using ho
  refine ⟨rfl, rfl, ?_, ?_, ?_⟩
  · intro hcov
    simp [_inputs_to_list, hoe, dictLookup, setKey,
      pickOrdered_eq_map order kvs hcov]
  · intro hcov
    have hall : ((dicts.map PyVal.dict).all PyVal.isDict) = true := by
      rw [List.all_eq_true]
      intro x hx
      obtain ⟨d, _, rfl⟩ := List.mem_map.mp hx
      rfl
    simp [_inputs_to_list, hoe, dictLookup, setKey, hall,
      pickRows_eq_map order dicts hcov]
  · intro hk hnone
    simp [_inputs_to_list, hoe, dictLookup,
      pickOrdered_missing order kvs k hk hnone]

/-- Witness for C7: a two-feature expansion reorders dict values into
declared order, and a request missing key `"b"` fails naming
`["a", "b"]`. -/
theorem C7_dict_inputs_witness :
    _inputs_to_list (some ["a", "b"])
        [("inputs", PyVal.dict [("b", PyVal.int 2), ("a", PyVal.int 1)])]
      = Except.ok [("inputs", PyVal.list [PyVal.int 1, PyVal.int 2])] ∧
    _inputs_to_list (some ["a", "b"])
        [("inputs", PyVal.dict [("a", PyVal.int 1)])]
      = Except.error (InputsErr.missingKeys ["a", "b"]) := by
  constructor
  · exact (C7_dict_inputs [] ["a", "b"]
      [("b", PyVal.int 2), ("a", PyVal.int 1)] [] "b"
      (by decide)).2.2.1 (by decide)
  · exact (C7_dict_inputs [] ["a", "b"] [("a", PyVal.int 1)] [] "b"
      (by decide)).2.2.2.2 (by decide) rfl

/-- C8: a registry-unavailable (`MLRunBadRequestError`) lookup failure
makes `_init_endpoint_record` return `None` without raising, whatever the
downstream DB calls would do; a `NotFoundError` is treated as absence
and reconciliation continues (creating when tracking is enabled) without
turning the lookup miss into an error. -/
theorem C8_registry_soft_failure (msg : String)
    (gf : Except String (Option String)) (track : Bool)
    (lm : LocalModelInfo) (cr pr : Except String String) :
    _init_endpoint_record (EpLookup.badRequest msg) gf track lm cr pr
      = Except.ok none ∧
    (∀ fuid cuid, gf = Except.ok fuid → cr = Except.ok cuid →
      _init_endpoint_record EpLookup.notFound gf track lm cr pr
        = Except.ok (if track then some cuid else none)) := by
  constructor
  · rfl
  · intro fuid cuid hgf hcr
    subst hgf
    subst hcr
    cases track <;> simp [_init_endpoint_record, reconcileAfterLookup]

/-- Witness for C8: a bad-request lookup returns `None` even though every
downstream call would fail, and a not-found lookup proceeds to create. -/
theorem C8_registry_soft_failure_witness :
    _init_endpoint_record
        (EpLookup.badRequest "cannot get the model endpoints store")
        (Except.error "offline") true
        ⟨none, none, none, none, [], "MyClass"⟩
        (Except.error "create failed") (Except.error "patch failed")
      = Except.ok none ∧
    _init_endpoint_record EpLookup.notFound (Except.ok (some "f-uid")) true
        ⟨none, none, none, none, [], "MyClass"⟩
        (Except.ok "ep-uid") (Except.error "patch failed")
      = Except.ok (some "ep-uid") := by
  have h1 := C8_registry_soft_failure "cannot get the model endpoints store"
    (Except.error "offline") true ⟨none, none, none, none, [], "MyClass"⟩
    (Except.error "create failed") (Except.error "patch failed")
  have h2 := C8_registry_soft_failure "unused" (Except.ok (some "f-uid"))
    true ⟨none, none, none, none, [], "MyClass"⟩ (Except.ok "ep-uid")
    (Except.error "patch failed")
  exact ⟨h1.1, h2.2 (some "f-uid") "ep-uid" rfl rfl⟩

/-- C2 counterexample: with body `{"operation": "explain"}`, path
`"/infer"` and method `"POST"` the code classifies the operation as
`infer` — the path wins — while the claimed order (body `operation` field
first) yields `explain`, so the claimed classification order is false. -/
theorem C2_counterexample :
    classifyOp "/infer" "POST" (some [("operation", "explain")])
      = some "infer" ∧
    classifyOpSpecOrder "/infer" "POST" (some [("operation", "explain")])
      = "explain" ∧
    (some "infer" : Option String) ≠ some "explain" := by
  refine ⟨by decide, by decide, by decide⟩

/-- Witness for the C2 amended theorem at concrete inputs. -/
theorem C2_classification_order_witness :
    classifyOp "/predict" "POST" (some [("operation", "explain")])
      = some "predict" ∧
    classifyOp "" "POST" (some [("operation", "explain")]) = some "explain" := by
  have h := C2_classification_order "/predict" "POST"
    [("operation", "explain")] "explain" (by decide) (by decide) rfl
    (by decide)
  exact ⟨h.1 (some [("operation", "explain")]), h.2.1⟩
